import Mathlib

/-!
# Verification of the muxic playback core

A shallow embedding, in Lean 4, of the playback/queue/progress core of the
muxic terminal music player (Go), together with theorems settling the claims
of the specification against it.

The embedding follows the Go source:

* `Queue` and its operations follow `internal/player/components` (the queue
  file with `AdvanceAndGetNext`).
* `AudioPlayer`, its operations, and the skip commands follow
  `internal/player/components/audio_player.go` (the variant with
  `CurrentVolumePercent` and `SetVolume`) and `internal/player/commands.go`
  (`SkipForwardCmd` / `SkipBackwardCmd`).
* The update-loop finished-track check follows `Model.Update` in the model
  file whose update loop contains the `GetProgress() >= 0.99` test, together
  with the `PlayNextInQueueCmd` it dispatches.
* `readAudioMetadata` follows `internal/util/audio.go`.

Go machine integers are modelled as `Int` (no operation here approaches
overflow), Go float comparisons on exactly-representable values as `ℚ`, and
Go `nil`-able pointers as `Option`.  A Go runtime panic is modelled as the
`none` case of an `Option` result.
-/

namespace Muxic

/-- `util.AudioFile`: metadata plus path for one track (data only). -/
structure AudioFile where
  path : String
  title : String
  artist : String
  album : String
  duration : String
deriving Repr, DecidableEq

/-- `components.Queue`: an ordered list of tracks plus a cursor.  The Go
struct also carries a `Playing` flag, a mutex and an `onTrackEnd` callback;
none of them is read or written by the operations modelled here, so they are
omitted.  `CurrentIndex` is a Go `int`, modelled as `Int`. -/
structure Queue where
  tracks : List AudioFile
  currentIndex : Int
deriving Repr, DecidableEq

/-- `NewQueue()`: zero value, empty track list, cursor 0. -/
def newQueue : Queue := { tracks := [], currentIndex := 0 }

/-- `Queue.Add`: append a track. -/
def Queue.add (q : Queue) (t : AudioFile) : Queue :=
  { q with tracks := q.tracks ++ [t] }

/-- `Queue.Next`: `CurrentIndex++`, wrapping to 0 once it reaches the length
(circular advance). -/
def Queue.next (q : Queue) : Queue :=
  let i := q.currentIndex + 1
  if (q.tracks.length : Int) ≤ i then { q with currentIndex := 0 }
  else { q with currentIndex := i }

/-- `Queue.Previous`: `CurrentIndex--`, wrapping to `len-1` below 0. -/
def Queue.previous (q : Queue) : Queue :=
  let i := q.currentIndex - 1
  if i < 0 then { q with currentIndex := (q.tracks.length : Int) - 1 }
  else { q with currentIndex := i }

/-- `Queue.Clear`: `q.Tracks = nil`.  The Go method touches only the track
slice; `CurrentIndex` is not assigned. -/
def Queue.clear (q : Queue) : Queue :=
  { q with tracks := [] }

/-- Go slice indexing `l[i]` with an `int` index: in range yields the
element, out of range panics (`none`). -/
def goIndex (l : List AudioFile) (i : Int) : Option AudioFile :=
  if h : 0 ≤ i ∧ i.toNat < l.length then some (l.get ⟨i.toNat, h.2⟩) else none

/-- `Queue.Remove`: `q.Tracks = append(q.Tracks[:index], q.Tracks[index+1:]...)`
with no bounds check.  Per the Go slice-expression rules, `s[:index]` requires
`0 ≤ index ≤ cap(s)` and `s[index+1:]` (whose high bound defaults to `len(s)`)
requires `0 ≤ index+1 ≤ len(s)`; so the method panics — independently of the
slice capacity — exactly when `index < 0` or `index+1 > len`, and otherwise
drops the element at `index`.  `none` models the panic. -/
def Queue.remove (q : Queue) (index : Int) : Option Queue :=
  if 0 ≤ index ∧ index + 1 ≤ (q.tracks.length : Int) then
    some { q with tracks :=
      q.tracks.take index.toNat ++ q.tracks.drop (index.toNat + 1) }
  else none

/-- `Queue.AdvanceAndGetNext`: the linear (non-wrapping) advance.  Empty
queue: return nil, unchanged.  A next track exists (`CurrentIndex+1 < len`):
increment the cursor and return the track there (the indexing can panic for a
cursor below `-1`, modelled by the outer `none`).  Otherwise return nil,
unchanged. -/
def Queue.advanceAndGetNext (q : Queue) : Option (Queue × Option AudioFile) :=
  if q.tracks.length = 0 then some (q, none)
  else if q.currentIndex + 1 < (q.tracks.length : Int) then
    match goIndex q.tracks (q.currentIndex + 1) with
    | some t => some ({ q with currentIndex := q.currentIndex + 1 }, some t)
    | none => none
  else some (q, none)

/-- Sample tracks for concrete evaluations. -/
def tA : AudioFile := ⟨"/m/a.mp3", "A", "artA", "albA", "1:00"⟩

def tB : AudioFile := ⟨"/m/b.mp3", "B", "artB", "albB", "2:00"⟩

def tC : AudioFile := ⟨"/m/c.mp3", "C", "artC", "albC", "3:00"⟩

/-- A 3-track queue with the cursor on the last track. -/
def q3last : Queue := { tracks := [tA, tB, tC], currentIndex := 2 }

/-- A 3-track queue with the cursor on the first track. -/
def q3first : Queue := { tracks := [tA, tB, tC], currentIndex := 0 }

/-!
## The audio player

`components.AudioPlayer` owns a `beep.StreamSeekCloser`, playback flags,
sample counters, a `beep.Ctrl` and an `effects.Volume`.  The decoder handles
are external collaborators; we model each handle opened during a run as a
`StreamSt` record (its id, its `Len()`, its `Position()`, and whether it has
been `Close`d), kept in a `World` next to the player.  The beep mp3 decoder
contract used: `Len() ≥ 0`, `SampleRate > 0`, `Position() ∈ [0, Len()]`,
`Stream` delivers at most the remaining samples, and `Seek(p)` succeeds
exactly for `0 ≤ p ≤ Len()`.
-/

/-- The gain value stored in `effects.Volume.Volume` (beep's exponential
scale).  `SetVolume` writes either the max-gain ceiling
`maxGainDB/10 = 1.2` or the decibel mapping `10*log10(percent/100)/2`;
the latter is kept symbolically as `logMap percent` (the code computes it
with `math.Log10`).  `raw v` is a value not produced by `SetVolume`
(e.g. the zero default). -/
inductive GainVal where
  | raw (v : ℚ)
  | maxGain
  | logMap (percent : ℚ)
deriving Repr, DecidableEq

/-- `effects.Volume`: the mute switch and the gain. -/
structure VolumeEffect where
  silent : Bool
  gain : GainVal
deriving Repr, DecidableEq

/-- The state of one decoder handle opened during the run. -/
structure StreamSt where
  sid : Nat
  len : Int
  pos : Int
  closed : Bool
deriving Repr, DecidableEq

/-- `components.AudioPlayer` (the variant with `CurrentVolumePercent`).
`CurrentStreamer` holds the id of the installed handle (`none` = nil);
`ctrlPaused` models the `beep.Ctrl` pointer (`none` = nil, `some b` = a Ctrl
with `Paused = b`); `volume` models the `effects.Volume` pointer.  Durations
are in nanoseconds (`time.Duration`).  The `Looping` flag, `doneChan` and
`closeOnce` are omitted: no modelled operation reads them. -/
structure AudioPlayer where
  currentStreamer : Option Nat
  playing : Bool
  samplesPlayed : Int
  totalSamples : Int
  sampleRate : Int
  playedTimeNs : Int
  totalTimeNs : Int
  ctrlPaused : Option Bool
  volume : Option VolumeEffect
  currentVolumePercent : ℚ
deriving Repr, DecidableEq

/-- `NewAudioPlayer()`. -/
def newAudioPlayer : AudioPlayer :=
  { currentStreamer := none, playing := false, samplesPlayed := 0,
    totalSamples := 0, sampleRate := 0, playedTimeNs := 0, totalTimeNs := 0,
    ctrlPaused := none, volume := none, currentVolumePercent := 50 }

/-- The player together with every decoder handle opened so far. -/
structure World where
  ap : AudioPlayer
  streams : List StreamSt
deriving Repr, DecidableEq

/-- The startup world: a fresh player, no handle opened yet. -/
def initWorld : World := { ap := newAudioPlayer, streams := [] }

/-- Find the handle with the given id (first match). -/
def findStream : List StreamSt → Nat → Option StreamSt
  | [], _ => none
  | s :: ss, i => if s.sid = i then some s else findStream ss i

/-- Apply `f` to the handle(s) with the given id. -/
def mapStream (ss : List StreamSt) (i : Nat) (f : StreamSt → StreamSt) :
    List StreamSt :=
  ss.map (fun s => if s.sid == i then f s else s)

/-- Number of handles opened and not yet closed. -/
def openCount (w : World) : Nat :=
  (w.streams.filter (fun s => !s.closed)).length

/-- `AudioPlayer.IsPlaying()`: `a.Playing && a.Ctrl != nil && !a.Ctrl.Paused`. -/
def AudioPlayer.isPlaying (a : AudioPlayer) : Bool :=
  match a.ctrlPaused with
  | some paused => a.playing && !paused
  | none => false

/-- `AudioPlayer.GetProgress()`: 0 when `TotalSamples <= 0`, else the exact
quotient `SamplesPlayed / TotalSamples` (a pure read; the Go code performs
the division in float64, whose value this rational is). -/
def AudioPlayer.getProgress (a : AudioPlayer) : ℚ :=
  if a.totalSamples ≤ 0 then 0
  else (a.samplesPlayed : ℚ) / (a.totalSamples : ℚ)

/-- `AudioPlayer.Stop()`: close the installed handle if any and clear the
reference, then reset `Playing`, `SamplesPlayed`, `TotalSamples`,
`PlayedTime`.  (`Ctrl`, `Volume`, `SampleRate` and `TotalTime` are left.) -/
def stopGo (w : World) : World :=
  let streams :=
    match w.ap.currentStreamer with
    | some i => mapStream w.streams i (fun s => { s with closed := true })
    | none => w.streams
  { ap := { w.ap with
      currentStreamer := none
      playing := false
      samplesPlayed := 0
      totalSamples := 0
      playedTimeNs := 0 },
    streams := streams }

/-- `AudioPlayer.Pause()`: if a Ctrl exists, set `Paused` and clear
`Playing`; otherwise do nothing. -/
def pauseGo (w : World) : World :=
  match w.ap.ctrlPaused with
  | some _ =>
      { w with ap := { w.ap with ctrlPaused := some true, playing := false } }
  | none => w

/-- Outcome of `util.OpenAudioFile` for the track handed to `Play`: either
the open/decode fails, or a fresh decoder handle with the given `Len()` and
sample rate. -/
inductive OpenResult where
  | fail
  | ok (len : Int) (rate : Int)
deriving Repr, DecidableEq

/-- Decoder contract for a successful open: nonnegative length, positive
sample rate. -/
def OkRes : OpenResult → Prop
  | .fail => True
  | .ok len rate => 0 ≤ len ∧ 0 < rate

/-- `AudioPlayer.Play(track)`: if `IsPlaying()`, `Stop()` first; then open
the track.  On failure return the error (second component `true`) with no
further mutation.  On success install the fresh handle, set the counters and
times from the stream header, build a new `effects.Volume` carrying over the
previous gain (`Silent=false`), a new unpaused `Ctrl`, start output, and set
`Playing`.  (The blocking wait on `doneChan` is a concurrency detail with no
state content here.)

`playOpened` is the success path after the open returned a fresh handle. -/
def playOpened (w1 : World) (len rate : Int) : World :=
  let nid := w1.streams.length
  let oldGain :=
    match w1.ap.volume with
    | some v => v.gain
    | none => GainVal.raw 0
  { ap := { w1.ap with
      currentStreamer := some nid,
      sampleRate := rate,
      totalSamples := len,
      samplesPlayed := 0,
      playedTimeNs := 0,
      totalTimeNs := len * 1000000000 / rate,
      volume := some { silent := false, gain := oldGain },
      ctrlPaused := some false,
      playing := true },
    streams := w1.streams ++ [{ sid := nid, len := len, pos := 0, closed := false }] }

/-- `AudioPlayer.Play(track)` assembled: stop first only when `IsPlaying()`,
then either return the open error or install the fresh stream. -/
def playGo (w : World) (res : OpenResult) : World × Bool :=
  let w1 := if w.ap.isPlaying then stopGo w else w
  match res with
  | .fail => (w1, true)
  | .ok len rate => (playOpened w1 len rate, false)

/-- `AudioPlayer.SetVolume(percent)` (constants `minVolume = 0`,
`maxVolume = 100`, `maxGainDB = 12`): clamp the percentage to `[0,100]` and
store it; if no `Volume` exists, done.  Otherwise `percent <= 0` switches the
transform to `Silent`; `percent == 100` sets the gain to the max-gain ceiling
`maxGainDB/10`; in between the gain is the decibel mapping
`10*log10(percent/100)/2`. -/
def AudioPlayer.setVolume (a : AudioPlayer) (percent : ℚ) : AudioPlayer :=
  let p := if percent < 0 then 0 else if percent > 100 then 100 else percent
  let vol :=
    match a.volume with
    | none => a.volume
    | some v =>
        if p ≤ 0 then some { v with silent := true }
        else if p = 100 then some { silent := false, gain := GainVal.maxGain }
        else some { silent := false, gain := GainVal.logMap p }
  { a with currentVolumePercent := p, volume := vol }

/-- `SetVolume` lifted to the world (it touches only the player). -/
def setVolumeW (w : World) (percent : ℚ) : World :=
  { w with ap := w.ap.setVolume percent }

/-- `SkipForwardCmd` followed by the update loop applying the returned
`playbackSeekedMsg`: with no installed stream, fail (`true`) with a
no-active-playback error; otherwise compute
`newPos = Position() + 10*SampleRate`, clamp it down to `Len()`, seek the
stream there (in range, so the mp3 seek succeeds), and set `SamplesPlayed`
and `PlayedTime` (`= newPos * 1s / SampleRate`) to match. -/
def skipForwardGo (w : World) : World × Bool :=
  match w.ap.currentStreamer with
  | none => (w, true)
  | some i =>
      match findStream w.streams i with
      | none => (w, true)
      | some s =>
          let target := s.pos + 10 * w.ap.sampleRate
          let newPos := if s.len < target then s.len else target
          ({ ap := { w.ap with
               samplesPlayed := newPos
               playedTimeNs := newPos * 1000000000 / w.ap.sampleRate },
             streams := mapStream w.streams i (fun t => { t with pos := newPos }) },
            false)

/-- `SkipBackwardCmd` followed by the update loop applying the returned
`playbackSeekedMsg`: symmetric to skip-forward, with
`newPos = Position() - 10*SampleRate` clamped up to 0. -/
def skipBackwardGo (w : World) : World × Bool :=
  match w.ap.currentStreamer with
  | none => (w, true)
  | some i =>
      match findStream w.streams i with
      | none => (w, true)
      | some s =>
          let target := s.pos - 10 * w.ap.sampleRate
          let newPos := if target < 0 then 0 else target
          ({ ap := { w.ap with
               samplesPlayed := newPos
               playedTimeNs := newPos * 1000000000 / w.ap.sampleRate },
             streams := mapStream w.streams i (fun t => { t with pos := newPos }) },
            false)

/-- `AudioPlayer.SeekTo(pos)`: error when no stream is installed;
`samplePos` is the sample offset the Go code computes from `pos`
(`int(pos.Seconds() * float64(SampleRate))`) and `posNs` the duration it
stores.  The decoder seek succeeds exactly for `0 ≤ samplePos ≤ Len()`; on
its failure the position is left unchanged and the error returned. -/
def seekToGo (w : World) (samplePos posNs : Int) : World × Bool :=
  match w.ap.currentStreamer with
  | none => (w, true)
  | some i =>
      match findStream w.streams i with
      | none => (w, true)
      | some s =>
          if samplePos < 0 ∨ s.len < samplePos then (w, true)
          else
            ({ ap := { w.ap with samplesPlayed := samplePos, playedTimeNs := posNs },
               streams := mapStream w.streams i (fun t => { t with pos := samplePos }) },
              false)

/-- One pull of the background audio callback: while playing, the wrapped
`progressStreamer` delivers `n` samples, advances the decoder position and
adds `n` to `SamplesPlayed`, recomputing `PlayedTime`. -/
def tickGo (w : World) (n : Int) : World :=
  if w.ap.isPlaying then
    match w.ap.currentStreamer with
    | none => w
    | some i =>
        match findStream w.streams i with
        | none => w
        | some _ =>
            let sp := w.ap.samplesPlayed + n
            { ap := { w.ap with
                samplesPlayed := sp
                playedTimeNs := sp * 1000000000 / w.ap.sampleRate },
              streams := mapStream w.streams i (fun t => { t with pos := t.pos + n }) }
  else w

/-- The decoder delivers at most the remaining samples of the installed
stream. -/
def TickOK (w : World) (n : Int) : Prop :=
  match w.ap.currentStreamer with
  | none => True
  | some i =>
      match findStream w.streams i with
      | none => True
      | some s => s.pos + n ≤ s.len

/-- The end-of-stream `beep.Callback` appended after the stream: it flips
`Playing` off (the handle stays installed and open). -/
def finishGo (w : World) : World :=
  { w with ap := { w.ap with playing := false } }

/-- The player states reachable from startup through the modelled operation
surface, with the decoder-contract side conditions on the external
collaborator. -/
inductive Reach : World → Prop where
  | init : Reach initWorld
  | play {w : World} (res : OpenResult) : Reach w → OkRes res →
      Reach (playGo w res).1
  | pause {w : World} : Reach w → Reach (pauseGo w)
  | stop {w : World} : Reach w → Reach (stopGo w)
  | setVol {w : World} (p : ℚ) : Reach w → Reach (setVolumeW w p)
  | skipF {w : World} : Reach w → Reach (skipForwardGo w).1
  | skipB {w : World} : Reach w → Reach (skipBackwardGo w).1
  | seekTo {w : World} (sp ns : Int) : Reach w → Reach (seekToGo w sp ns).1
  | tick {w : World} (n : Int) : Reach w → 0 ≤ n → TickOK w n →
      Reach (tickGo w n)
  | finish {w : World} : Reach w → Reach (finishGo w)

/-!
## The playback-state invariant

`WF` collects the facts about a world that hold at startup and are preserved
by every modelled operation: the sample counters stay in range, the sample
rate is nonnegative (positive while a stream is installed), the installed
handle exists in the handle table with `Len()` equal to `TotalSamples` and
`Position()` equal to `SamplesPlayed`, and handle ids are the positions at
which they were opened.
-/

/-- Every recorded handle id is below the table length (ids are assigned
sequentially at open time). -/
def SidsOK (ss : List StreamSt) : Prop :=
  ∀ s ∈ ss, s.sid < ss.length

/-- The installed handle is recorded, and agrees with the player counters. -/
def StreamOK (w : World) : Prop :=
  ∀ i, w.ap.currentStreamer = some i →
    ∃ s, findStream w.streams i = some s ∧ s.len = w.ap.totalSamples ∧
      s.pos = w.ap.samplesPlayed ∧ 0 < w.ap.sampleRate

/-- The playback-state invariant. -/
def WF (w : World) : Prop :=
  0 ≤ w.ap.samplesPlayed ∧ w.ap.samplesPlayed ≤ w.ap.totalSamples ∧
    0 ≤ w.ap.sampleRate ∧ StreamOK w ∧ SidsOK w.streams

/-!
## The update loop of the model with the finished-track threshold

The `Model.Update` of the model file with the 0.99 check: before dispatching
any message it tests `m.AudioPlayer != nil && m.AudioPlayer.Playing &&
m.AudioPlayer.GetProgress() >= 0.99` and, when the test fires, returns
`PlayNextInQueueCmd(m)`; the runtime then executes that command, which runs
`m.Queue.Next()` (and yields no further message).  Only this finished-track
prefix of `Update` is modelled; `none` means the guard did not fire and the
update went on to ordinary message dispatch.
-/

/-- The model state that the finished-track check reads and writes (the
player is never nil once the model is constructed). -/
structure Model008 where
  audioPlayer : AudioPlayer
  queue : Queue
deriving Repr, DecidableEq

/-- The net state effect of one `Update` call whose finished-track guard
fires: the circular `Queue.Next()` dispatched through `PlayNextInQueueCmd`.
The player is not touched: nothing is played and nothing is stopped. -/
def update008FinishStep (m : Model008) : Option Model008 :=
  if m.audioPlayer.playing = true ∧ (99 : ℚ)/100 ≤ m.audioPlayer.getProgress then
    some { m with queue := m.queue.next }
  else none

/-- Modelled from the spec: the step the claim describes for the same guard —
invoke the Queue's linear `AdvanceAndGetNext`; if it yields a track, command
the engine to play it; if none, stop. -/
def claimC1Step (m : Model008) : Option Model008 :=
  if m.audioPlayer.playing = true ∧ (99 : ℚ)/100 ≤ m.audioPlayer.getProgress then
    match m.queue.advanceAndGetNext with
    | some (q2, some _) =>
        some { queue := q2,
               audioPlayer := { m.audioPlayer with
                 playing := true, samplesPlayed := 0 } }
    | some (q2, none) =>
        some { queue := q2,
               audioPlayer := { m.audioPlayer with
                 playing := false, currentStreamer := none,
                 samplesPlayed := 0, totalSamples := 0 } }
    | none => none
  else none

/-- A playing model at 100% progress with the queue cursor on the last of
two tracks. -/
def m0C1 : Model008 :=
  { audioPlayer := { newAudioPlayer with
      playing := true, samplesPlayed := 100, totalSamples := 100 },
    queue := { tracks := [tA, tB], currentIndex := 1 } }

/-- Concrete worlds used as witnesses/counterexamples below. -/
def wPlay : World := (playGo initWorld (.ok 100 10)).1

def wPaused : World := pauseGo wPlay

def wSecondPlay : World := (playGo wPaused (.ok 200 20)).1

/-- A player with a volume transform installed (gain at the zero default). -/
def apVol : AudioPlayer :=
  { newAudioPlayer with volume := some { silent := false, gain := GainVal.raw 0 } }

/-!
## The metadata reader

`util.readAudioMetadata` with its path-keyed cache.  The file-system and tag
library are external collaborators; one call's interaction with them is
summarised by a `FileOutcome`: which of the successive steps (`os.Open`,
`f.Stat`, `tag.ReadFrom`, `f.Seek(0,0)`) failed first, or the raw tag values
and the computed duration display string on success (the duration helper
returns its own "0:00" fallback internally, still on the success path).
-/

/-- The `(title, artist, album, duration)` tuple the reader returns and
caches. -/
structure MetaTuple where
  title : String
  artist : String
  album : String
  duration : String
deriving Repr, DecidableEq

/-- One call's interaction with the file system and the tag library. -/
inductive FileOutcome where
  | openErr
  | statErr
  | tagErr
  | seekErr
  | tagsOK (title artist album duration : String)
deriving Repr, DecidableEq

/-- The `metadataCache` map, path-keyed. -/
abbrev MetaCache := List (String × MetaTuple)

/-- Map lookup in the cache. -/
def cacheLookup : MetaCache → String → Option MetaTuple
  | [], _ => none
  | (p, t) :: rest, path => if p = path then some t else cacheLookup rest path

/-- The fallback tuple returned on every error path. -/
def fallbackMeta (defaultName : String) : MetaTuple :=
  { title := defaultName, artist := "Unknown", album := "Unknown",
    duration := "0:00" }

/-- `readAudioMetadata(path, defaultName)`: serve from the cache when the
path is present; otherwise read the file.  Every failing step returns the
fallback tuple without touching the cache; the success path applies the
per-field fallbacks for empty tags and inserts the tuple into the cache. -/
def readAudioMetadata (cache : MetaCache) (path defaultName : String)
    (outcome : FileOutcome) : MetaTuple × MetaCache :=
  match cacheLookup cache path with
  | some t => (t, cache)
  | none =>
      match outcome with
      | .openErr => (fallbackMeta defaultName, cache)
      | .statErr => (fallbackMeta defaultName, cache)
      | .tagErr => (fallbackMeta defaultName, cache)
      | .seekErr => (fallbackMeta defaultName, cache)
      | .tagsOK t a al d =>
          let tuple : MetaTuple :=
            { title := if t = "" then defaultName else t,
              artist := if a = "" then "Unknown" else a,
              album := if al = "" then "Unknown" else al,
              duration := d }
          (tuple, (path, tuple) :: cache)

/-- A one-entry cache for concrete evaluations. -/
def cache1 : MetaCache := [("/m/a.mp3", fallbackMeta "a.mp3")]

theorem findStream_mapStream (ss : List StreamSt) (i : Nat)
    (f : StreamSt → StreamSt) (hf : ∀ t, (f t).sid = t.sid) :
    findStream (mapStream ss i f) i = (findStream ss i).map f := by
  induction ss with
  | nil => rfl
  | cons s ss ih =>
      by_cases h : s.sid = i
      · simp [findStream, mapStream, h, hf s]
      · simpa [findStream, mapStream, h] using ih

theorem findStream_append_fresh (ss : List StreamSt) (t : StreamSt)
    (h : ∀ s ∈ ss, s.sid ≠ t.sid) :
    findStream (ss ++ [t]) t.sid = some t := by
  induction ss with
  | nil => simp [findStream]
  | cons s ss ih =>
      have hs : s.sid ≠ t.sid := h s (List.mem_cons_self s ss)
      have ih' := ih (fun u hu => h u (List.mem_cons_of_mem s hu))
      simpa [findStream, hs] using ih'

theorem findStream_mapStream_some (ss : List StreamSt) (i : Nat)
    (f : StreamSt → StreamSt) (hf : ∀ t, (f t).sid = t.sid) (s : StreamSt)
    (hfind : findStream ss i = some s) :
    findStream (mapStream ss i f) i = some (f s) := by
  rw [findStream_mapStream ss i f hf, hfind]
  rfl

theorem length_mapStream (ss : List StreamSt) (i : Nat)
    (f : StreamSt → StreamSt) : (mapStream ss i f).length = ss.length :=
  List.length_map ss _

theorem sidsOK_mapStream {ss : List StreamSt} (i : Nat)
    (f : StreamSt → StreamSt) (hf : ∀ t, (f t).sid = t.sid)
    (h : SidsOK ss) : SidsOK (mapStream ss i f) := by
  intro s hs
  rw [length_mapStream]
  rcases List.mem_map.mp hs with ⟨u, hu, hus⟩
  have hsid : s.sid = u.sid := by
    rw [← hus]
    by_cases hc : u.sid = i
    · simp [hc, hf u]
    · simp [hc]
  rw [hsid]
  exact h u hu

theorem wf_init : WF initWorld := by
  refine ⟨by simp [initWorld, newAudioPlayer], by simp [initWorld, newAudioPlayer],
    by simp [initWorld, newAudioPlayer], ?_, ?_⟩
  · intro i hi
    simp [initWorld, newAudioPlayer] at hi
  · intro s hs
    simp [initWorld] at hs

theorem wf_stop {w : World} (h : WF w) : WF (stopGo w) := by
  obtain ⟨h1, h2, h3, h4, h5⟩ := h
  refine ⟨by simp [stopGo], by simp [stopGo], by simpa [stopGo] using h3, ?_, ?_⟩
  · intro i hi
    simp [stopGo] at hi
  · cases hc : w.ap.currentStreamer with
    | none => simpa [stopGo, hc] using h5
    | some j =>
        simpa [stopGo, hc] using sidsOK_mapStream j (fun s => { s with closed := true })
          (fun t => rfl) h5

theorem wf_pause {w : World} (h : WF w) : WF (pauseGo w) := by
  obtain ⟨h1, h2, h3, h4, h5⟩ := h
  cases hc : w.ap.ctrlPaused with
  | none => simpa [pauseGo, hc] using ⟨h1, h2, h3, h4, h5⟩
  | some b =>
      refine ⟨by simpa [pauseGo, hc] using h1, by simpa [pauseGo, hc] using h2,
        by simpa [pauseGo, hc] using h3, ?_, by simpa [pauseGo, hc] using h5⟩
      intro i hi
      simp only [pauseGo, hc] at hi ⊢
      rcases h4 i hi with ⟨s, hs1, hs2, hs3, hs4⟩
      exact ⟨s, hs1, hs2, hs3, hs4⟩

theorem wf_finish {w : World} (h : WF w) : WF (finishGo w) := by
  obtain ⟨h1, h2, h3, h4, h5⟩ := h
  refine ⟨by simpa [finishGo] using h1, by simpa [finishGo] using h2,
    by simpa [finishGo] using h3, ?_, by simpa [finishGo] using h5⟩
  intro i hi
  simp only [finishGo] at hi ⊢
  rcases h4 i hi with ⟨s, hs1, hs2, hs3, hs4⟩
  exact ⟨s, hs1, hs2, hs3, hs4⟩

theorem wf_setVolume {w : World} (p : ℚ) (h : WF w) : WF (setVolumeW w p) := by
  obtain ⟨h1, h2, h3, h4, h5⟩ := h
  refine ⟨by simpa [setVolumeW, AudioPlayer.setVolume] using h1,
    by simpa [setVolumeW, AudioPlayer.setVolume] using h2,
    by simpa [setVolumeW, AudioPlayer.setVolume] using h3, ?_,
    by simpa [setVolumeW] using h5⟩
  intro i hi
  simp only [setVolumeW, AudioPlayer.setVolume] at hi ⊢
  rcases h4 i hi with ⟨s, hs1, hs2, hs3, hs4⟩
  exact ⟨s, hs1, hs2, hs3, hs4⟩

theorem wf_playOpened {w1 : World} {len rate : Int} (hlen : 0 ≤ len)
    (hrate : 0 < rate) (h : WF w1) : WF (playOpened w1 len rate) := by
  obtain ⟨h1, h2, h3, h4, h5⟩ := h
  have hfresh : ∀ s ∈ w1.streams, s.sid ≠ w1.streams.length := by
    intro s hs
    exact Nat.ne_of_lt (h5 s hs)
  refine ⟨by simp [playOpened], by simpa [playOpened] using hlen,
    by simpa [playOpened] using le_of_lt hrate, ?_, ?_⟩
  · intro i hi
    simp only [playOpened] at hi ⊢
    have hieq : i = w1.streams.length := by
      cases hi
      rfl
    subst hieq
    refine ⟨{ sid := w1.streams.length, len := len, pos := 0, closed := false },
      ?_, rfl, rfl, hrate⟩
    exact findStream_append_fresh w1.streams _ hfresh
  · intro s hs
    simp only [playOpened, List.length_append, List.length_cons,
      List.length_nil] at hs ⊢
    rcases List.mem_append.mp hs with hmem | hmem
    · exact Nat.lt_succ_of_lt (by simpa using h5 s hmem)
    · simp only [List.mem_singleton] at hmem
      subst hmem
      exact Nat.lt_succ_self _

theorem wf_play {w : World} (res : OpenResult) (hres : OkRes res) (h : WF w) :
    WF (playGo w res).1 := by
  have hw1 : WF (if w.ap.isPlaying then stopGo w else w) := by
    by_cases hp : w.ap.isPlaying
    · simpa [hp] using wf_stop h
    · simpa [hp] using h
  cases res with
  | fail => simpa [playGo] using hw1
  | ok len rate =>
      obtain ⟨hlen, hrate⟩ := hres
      simpa [playGo] using wf_playOpened hlen hrate hw1

theorem wf_skipForward {w : World} (h : WF w) : WF (skipForwardGo w).1 := by
  obtain ⟨h1, h2, h3, h4, h5⟩ := h
  cases hcs : w.ap.currentStreamer with
  | none => simpa [skipForwardGo, hcs] using ⟨h1, h2, h3, h4, h5⟩
  | some i =>
      rcases h4 i hcs with ⟨s, hs1, hs2, hs3, hs4⟩
      rw [show (skipForwardGo w).1 =
          ({ ap := { w.ap with
               samplesPlayed := if s.len < s.pos + 10 * w.ap.sampleRate then s.len
                 else s.pos + 10 * w.ap.sampleRate
               playedTimeNs := (if s.len < s.pos + 10 * w.ap.sampleRate then s.len
                 else s.pos + 10 * w.ap.sampleRate) * 1000000000 / w.ap.sampleRate },
             streams := mapStream w.streams i (fun t => { t with
               pos := if s.len < s.pos + 10 * w.ap.sampleRate then s.len
                 else s.pos + 10 * w.ap.sampleRate }) } : World) from by
        simp [skipForwardGo, hcs, hs1]]
      refine ⟨?_, ?_, h3, ?_, ?_⟩
      · dsimp only
        split <;> omega
      · dsimp only
        split <;> omega
      · intro j hj
        dsimp only at hj ⊢
        rw [hcs] at hj
        have hji : j = i := (Option.some_inj.mp hj).symm
        subst hji
        refine ⟨{ s with pos := if s.len < s.pos + 10 * w.ap.sampleRate then s.len
            else s.pos + 10 * w.ap.sampleRate }, ?_, hs2, rfl, hs4⟩
        refine findStream_mapStream_some w.streams j _ ?_ s hs1
        intro t
        rfl
      · exact sidsOK_mapStream i _ (fun t => rfl) h5

theorem wf_skipBackward {w : World} (h : WF w) : WF (skipBackwardGo w).1 := by
  obtain ⟨h1, h2, h3, h4, h5⟩ := h
  cases hcs : w.ap.currentStreamer with
  | none => simpa [skipBackwardGo, hcs] using ⟨h1, h2, h3, h4, h5⟩
  | some i =>
      rcases h4 i hcs with ⟨s, hs1, hs2, hs3, hs4⟩
      rw [show (skipBackwardGo w).1 =
          ({ ap := { w.ap with
               samplesPlayed := if s.pos - 10 * w.ap.sampleRate < 0 then 0
                 else s.pos - 10 * w.ap.sampleRate
               playedTimeNs := (if s.pos - 10 * w.ap.sampleRate < 0 then 0
                 else s.pos - 10 * w.ap.sampleRate) * 1000000000 / w.ap.sampleRate },
             streams := mapStream w.streams i (fun t => { t with
               pos := if s.pos - 10 * w.ap.sampleRate < 0 then 0
                 else s.pos - 10 * w.ap.sampleRate }) } : World) from by
        simp [skipBackwardGo, hcs, hs1]]
      refine ⟨?_, ?_, h3, ?_, ?_⟩
      · dsimp only
        split <;> omega
      · dsimp only
        split <;> omega
      · intro j hj
        dsimp only at hj ⊢
        rw [hcs] at hj
        have hji : j = i := (Option.some_inj.mp hj).symm
        subst hji
        refine ⟨{ s with pos := if s.pos - 10 * w.ap.sampleRate < 0 then 0
            else s.pos - 10 * w.ap.sampleRate }, ?_, hs2, rfl, hs4⟩
        refine findStream_mapStream_some w.streams j _ ?_ s hs1
        intro t
        rfl
      · exact sidsOK_mapStream i _ (fun t => rfl) h5

theorem wf_seekTo {w : World} (sp ns : Int) (h : WF w) :
    WF (seekToGo w sp ns).1 := by
  obtain ⟨h1, h2, h3, h4, h5⟩ := h
  cases hcs : w.ap.currentStreamer with
  | none => simpa [seekToGo, hcs] using ⟨h1, h2, h3, h4, h5⟩
  | some i =>
      rcases h4 i hcs with ⟨s, hs1, hs2, hs3, hs4⟩
      by_cases hrange : sp < 0 ∨ s.len < sp
      · simpa [seekToGo, hcs, hs1, hrange] using ⟨h1, h2, h3, h4, h5⟩
      · rw [show (seekToGo w sp ns).1 =
            ({ ap := { w.ap with samplesPlayed := sp, playedTimeNs := ns },
               streams := mapStream w.streams i (fun t => { t with pos := sp }) } :
              World) from by simp [seekToGo, hcs, hs1, hrange]]
        push_neg at hrange
        refine ⟨by dsimp only; omega, by dsimp only; omega, h3, ?_, ?_⟩
        · intro j hj
          dsimp only at hj ⊢
          rw [hcs] at hj
          have hji : j = i := (Option.some_inj.mp hj).symm
          subst hji
          refine ⟨{ s with pos := sp }, ?_, hs2, rfl, hs4⟩
          refine findStream_mapStream_some w.streams j _ ?_ s hs1
          intro t
          rfl
        · exact sidsOK_mapStream i _ (fun t => rfl) h5

theorem wf_tick {w : World} (n : Int) (hn : 0 ≤ n) (hok : TickOK w n)
    (h : WF w) : WF (tickGo w n) := by
  obtain ⟨h1, h2, h3, h4, h5⟩ := h
  by_cases hp : w.ap.isPlaying
  · cases hcs : w.ap.currentStreamer with
    | none => simpa [tickGo, hp, hcs] using ⟨h1, h2, h3, h4, h5⟩
    | some i =>
        rcases h4 i hcs with ⟨s, hs1, hs2, hs3, hs4⟩
        have hrem : s.pos + n ≤ s.len := by
          simpa [TickOK, hcs, hs1] using hok
        rw [show tickGo w n =
            ({ ap := { w.ap with
                 samplesPlayed := w.ap.samplesPlayed + n
                 playedTimeNs := (w.ap.samplesPlayed + n) * 1000000000 / w.ap.sampleRate },
               streams := mapStream w.streams i (fun t => { t with pos := t.pos + n }) } :
              World) from by simp [tickGo, hp, hcs, hs1]]
        refine ⟨by dsimp only; omega, by dsimp only; omega, h3, ?_, ?_⟩
        · intro j hj
          dsimp only at hj ⊢
          rw [hcs] at hj
          have hji : j = i := (Option.some_inj.mp hj).symm
          subst hji
          refine ⟨{ s with pos := s.pos + n }, ?_, hs2, by dsimp only; omega, hs4⟩
          refine findStream_mapStream_some w.streams j _ ?_ s hs1
          intro t
          rfl
        · exact sidsOK_mapStream i _ (fun t => rfl) h5
  · simpa [tickGo, hp] using ⟨h1, h2, h3, h4, h5⟩

/-- Every reachable world satisfies the playback-state invariant; in
particular `0 ≤ SamplesPlayed ≤ TotalSamples` in every reachable state. -/
theorem reach_wf {w : World} (h : Reach w) : WF w := by
  induction h with
  | init => exact wf_init
  | play res _ hres ih => exact wf_play res hres ih
  | pause _ ih => exact wf_pause ih
  | stop _ ih => exact wf_stop ih
  | setVol p _ ih => exact wf_setVolume p ih
  | skipF _ ih => exact wf_skipForward ih
  | skipB _ ih => exact wf_skipBackward ih
  | seekTo sp ns _ ih => exact wf_seekTo sp ns ih
  | tick n _ hn hok ih => exact wf_tick n hn hok ih
  | finish _ ih => exact wf_finish ih

theorem findStream_append_left (ss l : List StreamSt) (i : Nat) (s : StreamSt)
    (h : findStream ss i = some s) : findStream (ss ++ l) i = some s := by
  induction ss with
  | nil => simp [findStream] at h
  | cons u ss ih =>
      by_cases hc : u.sid = i
      · simpa [findStream, hc] using by simpa [findStream, hc] using h
      · simp only [findStream, hc, if_false, List.cons_append] at h ⊢
        exact ih h

end Muxic

/-- C2: for a non-empty queue with the cursor on the last track, `Next()`
wraps the cursor to 0 while `AdvanceAndGetNext()` returns none and leaves the
queue unchanged; for a queue state with a following track (cursor at least
`-1`, so the incremented index is a valid Go index), `AdvanceAndGetNext()`
moves the cursor up by one and returns the track at the new index. -/
theorem queue_next_wraps_advance_stops (q : Muxic.Queue) :
    (q.tracks ≠ [] → q.currentIndex = (q.tracks.length : Int) - 1 →
      (q.next).currentIndex = 0 ∧ q.advanceAndGetNext = some (q, none)) ∧
    (∀ (j : Nat), j < q.tracks.length → q.currentIndex + 1 = (j : Int) →
      ∀ (hj : j < q.tracks.length),
        q.advanceAndGetNext =
          some ({ q with currentIndex := (j : Int) }, some (q.tracks.get ⟨j, hj⟩))) := by
  constructor
  · intro hne hlast
    have hlen : 0 < q.tracks.length := List.length_pos.mpr hne
    constructor
    · simp only [Muxic.Queue.next, hlast]
      have : (q.tracks.length : Int) ≤ (q.tracks.length : Int) - 1 + 1 := by omega
      simp [this]
    · simp only [Muxic.Queue.advanceAndGetNext, hlast]
      have h0 : ¬ q.tracks.length = 0 := by omega
      have h1 : ¬ ((q.tracks.length : Int) - 1 + 1 < (q.tracks.length : Int)) := by omega
      simp [h0, h1]
  · intro j hjlen hij hj
    have h0 : ¬ q.tracks.length = 0 := by omega
    have h1 : q.currentIndex + 1 < (q.tracks.length : Int) := by omega
    simp [Muxic.Queue.advanceAndGetNext, h0, h1, hij, Muxic.goIndex, hjlen]

/-- Witness for C2: on `[A,B,C]` with cursor 2, `Next` wraps to 0 and
`AdvanceAndGetNext` yields none leaving the queue unchanged; on `[A,B,C]`
with cursor 0, `AdvanceAndGetNext` moves to index 1 and returns track B. -/
theorem queue_next_wraps_advance_stops_witness :
    (Muxic.q3last.next).currentIndex = 0 ∧
      Muxic.q3last.advanceAndGetNext = some (Muxic.q3last, none) ∧
      Muxic.q3first.advanceAndGetNext =
        some ({ Muxic.q3first with currentIndex := 1 }, some Muxic.tB) := by
  have h1 := (queue_next_wraps_advance_stops Muxic.q3last).1
    (by decide) (by decide)
  have h2 := (queue_next_wraps_advance_stops Muxic.q3first).2
    1 (by decide) (by decide) (by decide)
  exact ⟨h1.1, h1.2, h2⟩

/-- C8 (evaluation at the failing input): `Remove(5)` on the 3-track queue
panics (models Go's slice-bounds runtime panic) instead of failing with an
index-out-of-range error, and so does `Remove(-1)`; an in-range `Remove(1)`
deletes the middle element.  The Go method returns no error value at all. -/
theorem queue_remove_out_of_range_panics :
    Muxic.q3first.remove 5 = none ∧
      Muxic.q3first.remove (-1) = none ∧
      Muxic.q3first.remove 1 =
        some { tracks := [Muxic.tA, Muxic.tC], currentIndex := 0 } := by
  refine ⟨rfl, rfl, ?_⟩
  decide

/-- C9 (counterexample): `Clear()` on `[A,B,C]` with cursor 2 empties the
track list but leaves `currentIndex = 2`; the claim that the cursor is reset
to 0 is false at this input. -/
theorem queue_clear_keeps_cursor_counterexample :
    (Muxic.q3last.clear).tracks = [] ∧
      (Muxic.q3last.clear).currentIndex = 2 ∧
      ¬ (Muxic.q3last.clear).currentIndex = 0 := by
  refine ⟨rfl, rfl, ?_⟩
  decide

/-- C9 (amended): for every queue state, `Clear()` empties the track list and
leaves `currentIndex` exactly as it was (the Go method only assigns
`q.Tracks = nil`). -/
theorem queue_clear_empties_tracks (q : Muxic.Queue) :
    (q.clear).tracks = [] ∧ (q.clear).currentIndex = q.currentIndex :=
  ⟨rfl, rfl⟩

/-- C1 (counterexample): in a playing model at 100% progress with the queue
cursor on the last of two tracks, the update step whose finished-track guard
fires advances the cursor circularly to 0 and leaves the player playing,
whereas the claimed behaviour (linear advance-and-get-next; play the yielded
track or stop) would leave the cursor at 1 and stop playback.  The claim is
false at this input. -/
theorem update_threshold_counterexample :
    (Muxic.update008FinishStep Muxic.m0C1).map
        (fun m => (m.queue.currentIndex, m.audioPlayer.playing)) =
        some (0, true) ∧
      (Muxic.claimC1Step Muxic.m0C1).map
        (fun m => (m.queue.currentIndex, m.audioPlayer.playing)) =
        some (1, false) ∧
      Muxic.update008FinishStep Muxic.m0C1 ≠ Muxic.claimC1Step Muxic.m0C1 := by
  have hg : (99 : ℚ)/100 ≤ Muxic.m0C1.audioPlayer.getProgress := by
    rw [Muxic.AudioPlayer.getProgress]
    norm_num [Muxic.m0C1, Muxic.newAudioPlayer]
  have h1 : Muxic.update008FinishStep Muxic.m0C1 =
      some { Muxic.m0C1 with queue := Muxic.m0C1.queue.next } := by
    rw [Muxic.update008FinishStep, if_pos ⟨rfl, hg⟩]
  have h2 : Muxic.claimC1Step Muxic.m0C1 =
      some { queue := Muxic.m0C1.queue,
             audioPlayer := { Muxic.m0C1.audioPlayer with
               playing := false, currentStreamer := none,
               samplesPlayed := 0, totalSamples := 0 } } := by
    rw [Muxic.claimC1Step, if_pos ⟨rfl, hg⟩]
    have hadv : Muxic.m0C1.queue.advanceAndGetNext =
        some (Muxic.m0C1.queue, none) := by decide
    rw [hadv]
  refine ⟨?_, ?_, ?_⟩
  · rw [h1]
    decide
  · rw [h2]
    decide
  · rw [h1, h2]
    intro hcontra
    have h3 := congrArg (Option.map (fun m => m.queue.currentIndex)) hcontra
    revert h3
    decide

/-- C1 (amended): on each processing step of the update loop, if the player
is playing and the progress fraction is at least the 0.99 threshold, the loop
dispatches `PlayNextInQueueCmd`, whose net effect is the Queue's circular
`Next()` advance; the player state is untouched — the engine is not commanded
to play the new current track, and playback is not stopped at the end of the
queue (the cursor wraps to 0 instead). -/
theorem update_threshold_advances_circularly (m : Muxic.Model008)
    (h1 : m.audioPlayer.playing = true)
    (h2 : (99 : ℚ)/100 ≤ m.audioPlayer.getProgress) :
    Muxic.update008FinishStep m = some { m with queue := m.queue.next } := by
  simp [Muxic.update008FinishStep, h1, h2]

/-- Witness for the amended C1 at the concrete playing model. -/
theorem update_threshold_advances_circularly_witness :
    Muxic.update008FinishStep Muxic.m0C1 =
      some { Muxic.m0C1 with queue := Muxic.m0C1.queue.next } :=
  update_threshold_advances_circularly Muxic.m0C1 rfl
    (by rw [Muxic.AudioPlayer.getProgress]
        norm_num [Muxic.m0C1, Muxic.newAudioPlayer])

/-- C3 (counterexample): the world obtained by playing a track, pausing, and
playing a second track is reachable, and it has two decoder handles open at
once — `Play` did not close the paused stream, because its guard is
`IsPlaying()`, which is false while paused. -/
theorem play_paused_two_open_streams_counterexample :
    Muxic.Reach Muxic.wSecondPlay ∧ Muxic.openCount Muxic.wSecondPlay = 2 := by
  constructor
  · exact Muxic.Reach.play _
      (Muxic.Reach.pause (Muxic.Reach.play _ Muxic.Reach.init
        ⟨by decide, by decide⟩))
      ⟨by decide, by decide⟩
  · decide

/-- C3 (amended): `Play` closes the previous stream only when `IsPlaying()`
is true.  With a handle installed, a successful `Play` leaves that handle
exactly as it was (in particular open, if it was open) whenever the player
was not actively playing — paused, or stopped-flagged after a natural end —
and marks it closed when the player was playing. -/
theorem play_closes_previous_stream_only_when_playing (w : Muxic.World)
    (len rate : Int) (i : Nat) (s : Muxic.StreamSt)
    (hcs : w.ap.currentStreamer = some i)
    (hfind : Muxic.findStream w.streams i = some s) :
    (w.ap.isPlaying = false →
      Muxic.findStream (Muxic.playGo w (.ok len rate)).1.streams i = some s) ∧
    (w.ap.isPlaying = true →
      Muxic.findStream (Muxic.playGo w (.ok len rate)).1.streams i =
        some { s with closed := true }) := by
  constructor
  · intro hp
    have hstr : (Muxic.playGo w (.ok len rate)).1.streams =
        w.streams ++
          [{ sid := w.streams.length, len := len, pos := 0, closed := false }] := by
      simp [Muxic.playGo, hp, Muxic.playOpened]
    rw [hstr]
    exact Muxic.findStream_append_left _ _ i s hfind
  · intro hp
    have h1 : Muxic.findStream (Muxic.stopGo w).streams i =
        some { s with closed := true } := by
      have hst : (Muxic.stopGo w).streams =
          Muxic.mapStream w.streams i (fun t => { t with closed := true }) := by
        simp [Muxic.stopGo, hcs]
      rw [hst]
      refine Muxic.findStream_mapStream_some _ _ _ ?_ s hfind
      intro t
      rfl
    have hstr : (Muxic.playGo w (.ok len rate)).1.streams =
        (Muxic.stopGo w).streams ++
          [{ sid := (Muxic.stopGo w).streams.length, len := len, pos := 0,
             closed := false }] := by
      simp [Muxic.playGo, hp, Muxic.playOpened]
    rw [hstr]
    exact Muxic.findStream_append_left _ _ i _ h1

/-- Witness for the amended C3: playing over a paused stream leaves handle 0
open; playing over a playing stream closes handle 0. -/
theorem play_closes_previous_stream_only_when_playing_witness :
    Muxic.findStream (Muxic.playGo Muxic.wPaused (.ok 200 20)).1.streams 0 =
        some { sid := 0, len := 100, pos := 0, closed := false } ∧
      Muxic.findStream (Muxic.playGo Muxic.wPlay (.ok 200 20)).1.streams 0 =
        some { sid := 0, len := 100, pos := 0, closed := true } := by
  constructor
  · exact (play_closes_previous_stream_only_when_playing Muxic.wPaused 200 20 0
      { sid := 0, len := 100, pos := 0, closed := false }
      (by decide) (by decide)).1 (by decide)
  · exact (play_closes_previous_stream_only_when_playing Muxic.wPlay 200 20 0
      { sid := 0, len := 100, pos := 0, closed := false }
      (by decide) (by decide)).2 (by decide)

/-- C4 (counterexample): a paused world with an open stream is reachable;
`Play` on a track whose open fails returns the error, but the engine is not
left in the stopped state: the previous stream is still installed, its
total-samples counter still set, and the Ctrl still paused. -/
theorem play_decode_error_paused_counterexample :
    Muxic.Reach Muxic.wPaused ∧
      (Muxic.playGo Muxic.wPaused .fail).2 = true ∧
      (Muxic.playGo Muxic.wPaused .fail).1.ap.currentStreamer = some 0 ∧
      (Muxic.playGo Muxic.wPaused .fail).1.ap.totalSamples = 100 ∧
      (Muxic.playGo Muxic.wPaused .fail).1.ap.ctrlPaused = some true := by
  refine ⟨Muxic.Reach.pause (Muxic.Reach.play _ Muxic.Reach.init
    ⟨by decide, by decide⟩), ?_, ?_, ?_, ?_⟩ <;> decide

/-- C4 (amended): when the open/decode fails, `Play` returns the error and
the failure path itself performs no mutation: the resulting state is exactly
the prior state when the player was not actively playing (stopped stays
stopped with counters untouched, but a paused stream stays installed and
paused), and exactly the stopped state when the player was playing (the
stream had already been closed and the counters reset by the initial
`Stop()`). -/
theorem play_decode_error_returns_without_mutation (w : Muxic.World) :
    (Muxic.playGo w .fail).2 = true ∧
      (Muxic.playGo w .fail).1 =
        (if w.ap.isPlaying then Muxic.stopGo w else w) := by
  constructor <;> simp [Muxic.playGo]

/-- C5: in every reachable state, with no open stream both skip commands
fail with the no-active-playback error and change nothing; with an open
stream, both succeed, `SamplesPlayed` is set to exactly the target position
`Position() ± 10*SampleRate` clamped to `[0, TotalSamples]` (forward never
above `TotalSamples`, backward never below 0), and the played time is set to
match the clamped position. -/
theorem skip_commands_clamp (w : Muxic.World) (h : Muxic.Reach w) :
    (w.ap.currentStreamer = none →
      Muxic.skipForwardGo w = (w, true) ∧ Muxic.skipBackwardGo w = (w, true)) ∧
    (∀ (i : Nat) (s : Muxic.StreamSt), w.ap.currentStreamer = some i →
      Muxic.findStream w.streams i = some s →
      ((Muxic.skipForwardGo w).2 = false ∧
        (Muxic.skipForwardGo w).1.ap.samplesPlayed =
          max 0 (min (s.pos + 10 * w.ap.sampleRate) w.ap.totalSamples) ∧
        (Muxic.skipForwardGo w).1.ap.playedTimeNs =
          (Muxic.skipForwardGo w).1.ap.samplesPlayed * 1000000000 / w.ap.sampleRate ∧
        (Muxic.skipForwardGo w).1.ap.samplesPlayed ≤ w.ap.totalSamples ∧
        0 ≤ (Muxic.skipForwardGo w).1.ap.samplesPlayed) ∧
      ((Muxic.skipBackwardGo w).2 = false ∧
        (Muxic.skipBackwardGo w).1.ap.samplesPlayed =
          max 0 (min (s.pos - 10 * w.ap.sampleRate) w.ap.totalSamples) ∧
        (Muxic.skipBackwardGo w).1.ap.playedTimeNs =
          (Muxic.skipBackwardGo w).1.ap.samplesPlayed * 1000000000 / w.ap.sampleRate ∧
        (Muxic.skipBackwardGo w).1.ap.samplesPlayed ≤ w.ap.totalSamples ∧
        0 ≤ (Muxic.skipBackwardGo w).1.ap.samplesPlayed)) := by
  obtain ⟨h1, h2, h3, h4, h5⟩ := Muxic.reach_wf h
  constructor
  · intro hnone
    constructor <;> simp [Muxic.skipForwardGo, Muxic.skipBackwardGo, hnone]
  · intro i s hcs hfind
    rcases h4 i hcs with ⟨s2, hs1, hs2, hs3, hs4⟩
    rw [hfind] at hs1
    have hseq : s = s2 := Option.some_inj.mp hs1
    subst hseq
    have hF : Muxic.skipForwardGo w =
        ({ ap := { w.ap with
             samplesPlayed := if s.len < s.pos + 10 * w.ap.sampleRate then s.len
               else s.pos + 10 * w.ap.sampleRate
             playedTimeNs := (if s.len < s.pos + 10 * w.ap.sampleRate then s.len
               else s.pos + 10 * w.ap.sampleRate) * 1000000000 / w.ap.sampleRate },
           streams := Muxic.mapStream w.streams i (fun t => { t with
             pos := if s.len < s.pos + 10 * w.ap.sampleRate then s.len
               else s.pos + 10 * w.ap.sampleRate }) }, false) := by
      simp [Muxic.skipForwardGo, hcs, hfind]
    have hB : Muxic.skipBackwardGo w =
        ({ ap := { w.ap with
             samplesPlayed := if s.pos - 10 * w.ap.sampleRate < 0 then 0
               else s.pos - 10 * w.ap.sampleRate
             playedTimeNs := (if s.pos - 10 * w.ap.sampleRate < 0 then 0
               else s.pos - 10 * w.ap.sampleRate) * 1000000000 / w.ap.sampleRate },
           streams := Muxic.mapStream w.streams i (fun t => { t with
             pos := if s.pos - 10 * w.ap.sampleRate < 0 then 0
               else s.pos - 10 * w.ap.sampleRate }) }, false) := by
      simp [Muxic.skipBackwardGo, hcs, hfind]
    rw [hF, hB]
    refine ⟨⟨rfl, ?_, rfl, ?_, ?_⟩, ⟨rfl, ?_, rfl, ?_, ?_⟩⟩ <;> dsimp only <;>
      split <;> omega

/-- Witness for C5: with nothing open, skip-forward errors and leaves the
startup world unchanged; on a fresh 100-sample stream at 10 samples/second,
skip-forward lands exactly on the clamped end position 100 and skip-backward
on the clamped start position 0. -/
theorem skip_commands_clamp_witness :
    Muxic.skipForwardGo Muxic.initWorld = (Muxic.initWorld, true) ∧
      (Muxic.skipForwardGo Muxic.wPlay).1.ap.samplesPlayed = 100 ∧
      (Muxic.skipBackwardGo Muxic.wPlay).1.ap.samplesPlayed = 0 := by
  have hnone := (skip_commands_clamp Muxic.initWorld Muxic.Reach.init).1 (by decide)
  have hsome := (skip_commands_clamp Muxic.wPlay
      (Muxic.Reach.play _ Muxic.Reach.init ⟨by decide, by decide⟩)).2 0
      { sid := 0, len := 100, pos := 0, closed := false } (by decide) (by decide)
  refine ⟨hnone.1, ?_, ?_⟩
  · rw [hsome.1.2.1]
    decide
  · rw [hsome.2.2.1]
    decide

/-- C6: `SetVolume(percent)` clamps its argument to `[0,100]` and stores the
clamped value (so `0 ≤ CurrentVolumePercent ≤ 100` after every call); when a
volume transform exists, a percentage of 0 (or below) switches it to silent
rather than writing a near-zero gain, percentage 100 sets the max-gain
ceiling, and a percentage strictly between 0 and 100 sets the logarithmic
decibel mapping of the percentage. -/
theorem setVolume_clamps_and_maps_db (a : Muxic.AudioPlayer) (p : ℚ) :
    (0 ≤ (a.setVolume p).currentVolumePercent ∧
        (a.setVolume p).currentVolumePercent ≤ 100) ∧
      (a.setVolume p).currentVolumePercent = min 100 (max 0 p) ∧
      (∀ v, a.volume = some v → p ≤ 0 →
        (a.setVolume p).volume = some { v with silent := true }) ∧
      (a.volume.isSome = true → p = 100 →
        (a.setVolume p).volume =
          some { silent := false, gain := Muxic.GainVal.maxGain }) ∧
      (a.volume.isSome = true → 0 < p → p < 100 →
        (a.setVolume p).volume =
          some { silent := false, gain := Muxic.GainVal.logMap p }) := by
  refine ⟨?_, ?_, ?_, ?_, ?_⟩
  · simp only [Muxic.AudioPlayer.setVolume]
    constructor <;> split_ifs <;> linarith
  · simp only [Muxic.AudioPlayer.setVolume]
    split_ifs with ha hb
    · rw [max_eq_left ha.le, min_eq_right]
      norm_num
    · rw [max_eq_right (by linarith), min_eq_left hb.le]
    · rw [max_eq_right (not_lt.mp ha), min_eq_right (not_lt.mp hb)]
  · intro v hv hp0
    simp only [Muxic.AudioPlayer.setVolume, hv]
    split_ifs <;> first | rfl | linarith
  · intro hsome h100
    rcases Option.isSome_iff_exists.mp hsome with ⟨v, hv⟩
    subst h100
    simp only [Muxic.AudioPlayer.setVolume, hv]
    split_ifs <;> first | rfl | linarith | simp_all
  · intro hsome hlo hhi
    rcases Option.isSome_iff_exists.mp hsome with ⟨v, hv⟩
    simp only [Muxic.AudioPlayer.setVolume, hv]
    split_ifs <;> first | rfl | linarith

/-- Witness for C6 on a player with a volume transform: percentage 0 mutes,
100 sets the max gain, 50 sets the decibel mapping of 50, and 150 and -7 are
clamped into `[0,100]`. -/
theorem setVolume_clamps_and_maps_db_witness :
    (Muxic.apVol.setVolume 0).volume =
        some { silent := true, gain := Muxic.GainVal.raw 0 } ∧
      (Muxic.apVol.setVolume 100).volume =
        some { silent := false, gain := Muxic.GainVal.maxGain } ∧
      (Muxic.apVol.setVolume 50).volume =
        some { silent := false, gain := Muxic.GainVal.logMap 50 } ∧
      (Muxic.apVol.setVolume 150).currentVolumePercent = 100 ∧
      0 ≤ (Muxic.apVol.setVolume (-7)).currentVolumePercent := by
  refine ⟨?_, ?_, ?_, ?_, ?_⟩
  · exact (setVolume_clamps_and_maps_db Muxic.apVol 0).2.2.1
      { silent := false, gain := Muxic.GainVal.raw 0 } rfl le_rfl
  · exact (setVolume_clamps_and_maps_db Muxic.apVol 100).2.2.2.1 rfl rfl
  · exact (setVolume_clamps_and_maps_db Muxic.apVol 50).2.2.2.2 rfl
      (by norm_num) (by norm_num)
  · rw [(setVolume_clamps_and_maps_db Muxic.apVol 150).2.1]
    norm_num
  · exact (setVolume_clamps_and_maps_db Muxic.apVol (-7)).1.1

/-- C7: in every reachable player state, `GetProgress()` returns the exact
quotient `SamplesPlayed/TotalSamples` when `TotalSamples > 0` and 0 when
`TotalSamples = 0`; it is a pure read (a function of the state, defined
without any state output), and its value always lies in `[0,1]` — in
particular no reachable seek pushes it above 1. -/
theorem getProgress_pure_unit_interval (w : Muxic.World) (h : Muxic.Reach w) :
    (0 < w.ap.totalSamples →
        w.ap.getProgress = (w.ap.samplesPlayed : ℚ) / (w.ap.totalSamples : ℚ)) ∧
      (w.ap.totalSamples = 0 → w.ap.getProgress = 0) ∧
      0 ≤ w.ap.getProgress ∧ w.ap.getProgress ≤ 1 := by
  obtain ⟨h1, h2, h3, h4, h5⟩ := Muxic.reach_wf h
  refine ⟨?_, ?_, ?_, ?_⟩
  · intro hpos
    have hns : ¬ w.ap.totalSamples ≤ 0 := not_le.mpr hpos
    simp [Muxic.AudioPlayer.getProgress, hns]
  · intro h0
    simp [Muxic.AudioPlayer.getProgress, h0]
  · by_cases hts : w.ap.totalSamples ≤ 0
    · simp [Muxic.AudioPlayer.getProgress, hts]
    · have hpos : (0 : ℚ) < (w.ap.totalSamples : ℚ) := by
        exact_mod_cast lt_of_not_le hts
      have hnn : (0 : ℚ) ≤ (w.ap.samplesPlayed : ℚ) := by exact_mod_cast h1
      simp only [Muxic.AudioPlayer.getProgress, hts, if_false]
      exact div_nonneg hnn hpos.le
  · by_cases hts : w.ap.totalSamples ≤ 0
    · simp [Muxic.AudioPlayer.getProgress, hts]
    · have hpos : (0 : ℚ) < (w.ap.totalSamples : ℚ) := by
        exact_mod_cast lt_of_not_le hts
      have hle : (w.ap.samplesPlayed : ℚ) ≤ (w.ap.totalSamples : ℚ) := by
        exact_mod_cast h2
      simp only [Muxic.AudioPlayer.getProgress, hts, if_false]
      exact (div_le_one hpos).mpr hle

/-- Witness for C7 at the reachable state right after playing a 100-sample
track: the progress is the exact quotient 0/100 = 0 and lies in `[0,1]`. -/
theorem getProgress_pure_unit_interval_witness :
    Muxic.wPlay.ap.getProgress = 0 ∧ 0 ≤ Muxic.wPlay.ap.getProgress ∧
      Muxic.wPlay.ap.getProgress ≤ 1 := by
  have h := getProgress_pure_unit_interval Muxic.wPlay
    (Muxic.Reach.play _ Muxic.Reach.init ⟨by decide, by decide⟩)
  refine ⟨?_, h.2.2.1, h.2.2.2⟩
  have hsp : Muxic.wPlay.ap.samplesPlayed = 0 := by decide
  rw [h.1 (by decide), hsp]
  norm_num

/-- C10: when the path is not yet cached and the file read fails at the
open, stat, tag-parse, or rewind step, `readAudioMetadata` returns the
fallback tuple `(defaultName, "Unknown", "Unknown", "0:00")` and the cache
is unchanged — in particular the path is still absent, so a later query for
it re-attempts the file read instead of being served from the cache. -/
theorem readAudioMetadata_error_not_cached (cache : Muxic.MetaCache)
    (path defaultName : String) (outcome : Muxic.FileOutcome)
    (hmiss : Muxic.cacheLookup cache path = none)
    (herr : outcome = .openErr ∨ outcome = .statErr ∨ outcome = .tagErr ∨
      outcome = .seekErr) :
    Muxic.readAudioMetadata cache path defaultName outcome =
        (Muxic.fallbackMeta defaultName, cache) ∧
      Muxic.cacheLookup
        (Muxic.readAudioMetadata cache path defaultName outcome).2 path = none := by
  rcases herr with hout | hout | hout | hout <;> subst hout <;>
    exact ⟨by simp [Muxic.readAudioMetadata, hmiss],
      by simp [Muxic.readAudioMetadata, hmiss]⟩

/-- Witness for C10: an open failure on an uncached path returns the
fallback tuple, leaves the one-entry cache unchanged, and leaves the path
uncached. -/
theorem readAudioMetadata_error_not_cached_witness :
    Muxic.readAudioMetadata Muxic.cache1 "/m/b.mp3" "b.mp3" .openErr =
        (Muxic.fallbackMeta "b.mp3", Muxic.cache1) ∧
      Muxic.cacheLookup
        (Muxic.readAudioMetadata Muxic.cache1 "/m/b.mp3" "b.mp3" .openErr).2
        "/m/b.mp3" = none :=
  readAudioMetadata_error_not_cached Muxic.cache1 "/m/b.mp3" "b.mp3" .openErr
    (by decide) (Or.inl rfl)
